import Mathlib

/-!
Verification development for the `cryptoanalizador` repository
(`src/crypto_analyzer.py`).

The Python source is a thin object (`CryptoAnalyzer`) holding a pandas
dataframe `self.data`; the numeric indicator computations are delegated to
the third-party `ta` library and pandas, whose code is not part of the
repository.  We embed the repository's own methods (`load_data`,
`add_indicators`, `identify_patterns`, `generate_report`) directly from the
source, and model the missing library computations (SMA, EMA, RSI,
Bollinger bands, Series comparison/shift semantics) from the specification.

Prices are modelled as rationals (`ℚ`); a dataframe cell that pandas would
hold as `NaN` ("not enough history yet") is modelled as `Option.none`, per
the spec's instruction to model absence explicitly.  Errors raised by the
Python code (`ValueError`, `KeyError`, `ZeroDivisionError`) are modelled as
`Except.error` with a describing string.
-/

namespace CryptoAnalyzer

/-- One OHLC observation, as one row of the dataframe returned by the data
collaborator (`yfinance`): fields `timestamp`, `Open`, `High`, `Low`,
`Close`.  The core only ever reads `Close` (and, for plotting, the rest). -/
structure Bar where
  timestamp : ℕ
  Open : ℚ
  High : ℚ
  Low : ℚ
  Close : ℚ

/-- The mutable table `self.data`: the base bars plus named derived
(numeric, possibly-absent) columns and named signal (boolean) columns,
accumulated in place by the pipeline methods. -/
structure DataFrame where
  bars : List Bar
  derived : List (String × List (Option ℚ))
  signals : List (String × List Bool)

/-! ## Indicator Engine

Modelled from the spec: the `ta` library (`SMAIndicator`, `EMAIndicator`,
`RSIIndicator`, `BollingerBands`) is not part of the repository, so its
computations are taken from §4.1 of the specification. -/

/-- Trailing window of `w` closes ending at index `i`:
`closes[i-w+1 .. i]` (clamped at the left end). -/
def rollWindow (closes : List ℚ) (w i : ℕ) : List ℚ :=
  (closes.take (i + 1)).drop (i + 1 - w)

/-- Modelled from the spec: a rolling column over a series of length `L`
with window `w`: absent (`none`) at index `i` when fewer than `w` samples
are available (`i + 1 < w`), and `some (g i)` otherwise.  `sma` and the
Bollinger bands share this shape. -/
def windowed (g : ℕ → ℚ) (L w : ℕ) : List (Option ℚ) :=
  (List.range L).map fun i => if w ≤ i + 1 then some (g i) else none

/-- Modelled from the spec: `sma(closes, window)` — arithmetic mean of the
trailing `window` closes ending at each index; absent for indices
`< window - 1`. -/
def sma (closes : List ℚ) (w : ℕ) : List (Option ℚ) :=
  windowed (fun i => (rollWindow closes w i).sum / w) closes.length w

/-- Exponential recurrence `e[j] = alpha * x[j] + (1 - alpha) * e[j-1]`
continuing from the value `prev`; returns the values after `prev`. -/
def emaFrom (alpha : ℚ) : ℚ → List ℚ → List ℚ
  | _, [] => []
  | prev, c :: cs =>
      (alpha * c + (1 - alpha) * prev) :: emaFrom alpha (alpha * c + (1 - alpha) * prev) cs

/-- Modelled from the spec: `ema(closes, window)` — smoothing factor
`alpha = 2/(window+1)`, seeded at index `window - 1` by the simple mean of
the first `window` closes, then `ema[i] = alpha*close[i] + (1-alpha)*ema[i-1]`;
absent before the seed index. -/
def ema (closes : List ℚ) (w : ℕ) : List (Option ℚ) :=
  if 0 < w ∧ w ≤ closes.length then
    List.replicate (w - 1) none ++
      (((closes.take w).sum / w) ::
        emaFrom (2 / (w + 1)) ((closes.take w).sum / w) (closes.drop w)).map some
  else
    List.replicate closes.length none

/-- Per-step price changes `delta[i] = close[i+1] - close[i]`. -/
def deltas (closes : List ℚ) : List ℚ :=
  List.zipWith (fun a b => b - a) closes (closes.drop 1)

/-- Per-step gains `max(delta, 0)`. -/
def gains (closes : List ℚ) : List ℚ :=
  (deltas closes).map fun d => max d 0

/-- Per-step losses `max(-delta, 0)`. -/
def losses (closes : List ℚ) : List ℚ :=
  (deltas closes).map fun d => max (-d) 0

/-- Wilder smoothing (exponential with `alpha = 1/w`) of a delta-derived
sequence, seeded by the simple average of its first `w` entries; empty when
fewer than `w` deltas exist. -/
def wilderAvgs (xs : List ℚ) (w : ℕ) : List ℚ :=
  if 0 < w ∧ w ≤ xs.length then
    ((xs.take w).sum / w) :: emaFrom (1 / w) ((xs.take w).sum / w) (xs.drop w)
  else
    []

/-- Wilder-smoothed average gains for the RSI. -/
def gainAvgs (closes : List ℚ) (w : ℕ) : List ℚ :=
  wilderAvgs (gains closes) w

/-- Wilder-smoothed average losses for the RSI. -/
def lossAvgs (closes : List ℚ) (w : ℕ) : List ℚ :=
  wilderAvgs (losses closes) w

/-- Modelled from the spec: `RS = avg_gain/avg_loss`;
`RSI = 100 - 100/(1+RS)`; when `avg_loss == 0`, RSI is `100`
(avoiding the division by zero). -/
def rsiVal (g l : ℚ) : ℚ :=
  if l = 0 then 100 else 100 - 100 / (1 + g / l)

/-- Modelled from the spec: Wilder's RSI with window `w`; absent for the
first `w` indices (the seed window), present from index `w` on. -/
def rsi (closes : List ℚ) (w : ℕ) : List (Option ℚ) :=
  if 0 < w ∧ w ≤ (deltas closes).length then
    List.replicate w none ++
      List.zipWith (fun g l => some (rsiVal g l)) (gainAvgs closes w) (lossAvgs closes w)
  else
    List.replicate closes.length none

/-- Modelled from the spec: Bollinger middle band = `SMA(window)`. -/
def bollingerMavg (closes : List ℚ) (w : ℕ) : List (Option ℚ) :=
  sma closes w

/-- Modelled from the spec: Bollinger upper band
`middle + num_std * stdev` over the same rolling window.  The spec leaves
the standard-deviation convention (population vs sample) open, so the
per-window standard deviation is a parameter `stdev`. -/
def bollingerHband (stdev : List ℚ → ℚ) (closes : List ℚ) (w : ℕ) (k : ℚ) :
    List (Option ℚ) :=
  windowed
    (fun i => (rollWindow closes w i).sum / w + k * stdev (rollWindow closes w i))
    closes.length w

/-- Modelled from the spec: Bollinger lower band `middle - num_std * stdev`. -/
def bollingerLband (stdev : List ℚ → ℚ) (closes : List ℚ) (w : ℕ) (k : ℚ) :
    List (Option ℚ) :=
  windowed
    (fun i => (rollWindow closes w i).sum / w - k * stdev (rollWindow closes w i))
    closes.length w

/-! ## Pandas Series operations

Modelled from the spec / pandas semantics used at lines 52–61 of the
source: `shift(1)` moves every value one index later (absent at index 0),
and any comparison with an absent (`NaN`) operand is `false`. -/

/-- Series `shift(1)`: absent at index 0, original value `l[i-1]` at
index `i > 0`; same length as `l`. -/
def shift1 (l : List (Option ℚ)) : List (Option ℚ) :=
  (none :: l).take l.length

/-- Elementwise `>` with pandas NaN semantics: false unless both present. -/
def cmpGT : Option ℚ → Option ℚ → Bool
  | some a, some b => decide (b < a)
  | _, _ => false

/-- Elementwise `<` with pandas NaN semantics: false unless both present. -/
def cmpLT : Option ℚ → Option ℚ → Bool
  | some a, some b => decide (a < b)
  | _, _ => false

/-- Elementwise `<=` with pandas NaN semantics: false unless both present. -/
def cmpLE : Option ℚ → Option ℚ → Bool
  | some a, some b => decide (a ≤ b)
  | _, _ => false

/-- Elementwise `>=` with pandas NaN semantics: false unless both present. -/
def cmpGE : Option ℚ → Option ℚ → Bool
  | some a, some b => decide (b ≤ a)
  | _, _ => false

/-- Line 52 of the source:
`(SMA20 > SMA50) & (SMA20.shift(1) <= SMA50.shift(1))`. -/
def goldenCross (fast slow : List (Option ℚ)) : List Bool :=
  List.zipWith (fun a b => a && b)
    (List.zipWith cmpGT fast slow)
    (List.zipWith cmpLE (shift1 fast) (shift1 slow))

/-- Line 55 of the source:
`(SMA20 < SMA50) & (SMA20.shift(1) >= SMA50.shift(1))`. -/
def deathCross (fast slow : List (Option ℚ)) : List Bool :=
  List.zipWith (fun a b => a && b)
    (List.zipWith cmpLT fast slow)
    (List.zipWith cmpGE (shift1 fast) (shift1 slow))

/-! ## Dataframe column access -/

/-- Column read `self.data[name]` for a derived column; raises a
`KeyError` when the column has not been created. -/
def getDerived (df : DataFrame) (name : String) : Except String (List (Option ℚ)) :=
  match df.derived.lookup name with
  | some col => Except.ok col
  | none => Except.error ("KeyError: " ++ name)

/-- Column read `self.data[name]` for a signal column; raises a
`KeyError` when the column has not been created. -/
def getSignal (df : DataFrame) (name : String) : Except String (List Bool) :=
  match df.signals.lookup name with
  | some col => Except.ok col
  | none => Except.error ("KeyError: " ++ name)

/-- Column write `self.data[name] = col`: overwrite an existing column of
that name, else append it. -/
def setCol {α : Type} (cols : List (String × α)) (name : String) (v : α) :
    List (String × α) :=
  match cols with
  | [] => [(name, v)]
  | (n, c) :: rest =>
      if n = name then (n, v) :: rest else (n, c) :: setCol rest name v

/-! ## The methods of `CryptoAnalyzer`, embedded from the source -/

/-- Lines 19–24, `load_data`: store the bars fetched by the data
collaborator; raise `ValueError` (the EmptySeries error) when the fetched
frame is empty.  The constructor (line 17) calls this immediately. -/
def loadData (symbol : String) (fetched : List Bar) : Except String DataFrame :=
  if fetched.isEmpty then
    Except.error ("No data found for " ++ symbol)
  else
    Except.ok { bars := fetched, derived := [], signals := [] }

/-- Lines 26–47, `add_indicators`: compute SMA20, SMA50, EMA20, RSI (window
14, the `ta` default) and the Bollinger bands (window 20, 2 standard
deviations, the `ta` defaults) over the close column, storing each as a
derived column.  `bbStd` is the rolling standard-deviation convention used
by the Bollinger bands (left open by the spec). -/
def addIndicators (bbStd : List ℚ → ℚ) (df : DataFrame) : DataFrame :=
  let closes := df.bars.map Bar.Close
  let d0 := setCol df.derived "SMA20" (sma closes 20)
  let d1 := setCol d0 "SMA50" (sma closes 50)
  let d2 := setCol d1 "EMA20" (ema closes 20)
  let d3 := setCol d2 "RSI" (rsi closes 14)
  let d4 := setCol d3 "BB_upper" (bollingerHband bbStd closes 20 2)
  let d5 := setCol d4 "BB_lower" (bollingerLband bbStd closes 20 2)
  let d6 := setCol d5 "BB_middle" (bollingerMavg closes 20)
  { df with derived := d6 }

/-- Lines 49–61, `identify_patterns`: read SMA20, SMA50 and RSI (a
`KeyError` if missing, SMA20 first) and store the four signal columns
Golden_Cross, Death_Cross, Oversold (`RSI < 30`), Overbought (`RSI > 70`). -/
def identifyPatterns (df : DataFrame) : Except String DataFrame := do
  let sma20 ← getDerived df "SMA20"
  let sma50 ← getDerived df "SMA50"
  let golden := goldenCross sma20 sma50
  let death := deathCross sma20 sma50
  let rsiCol ← getDerived df "RSI"
  let oversold := rsiCol.map fun v =>
    match v with
    | some x => decide (x < 30)
    | none => false
  let overbought := rsiCol.map fun v =>
    match v with
    | some x => decide (70 < x)
    | none => false
  let s0 := setCol df.signals "Golden_Cross" golden
  let s1 := setCol s0 "Death_Cross" death
  let s2 := setCol s1 "Oversold" oversold
  let s3 := setCol s2 "Overbought" overbought
  Except.ok { df with signals := s3 }

/-- The fixed-shape summary record built at lines 120–130. -/
structure Report where
  symbol : String
  period : String
  currentPrice : ℚ
  priceChangePct : ℚ
  rsiLatest : Option ℚ
  goldenCrosses : ℕ
  deathCrosses : ℕ
  timesOversold : ℕ
  timesOverbought : ℕ

/-- Lines 118–131, `generate_report`, with the dictionary values evaluated
in source order: last close, first close, the price change
`(last - first) / first * 100` (modelled from the spec as raising a
DivisionByZero-class error when the first close is zero — the division
itself is executed by the numeric library, not by repository code), the
last RSI value, and the four signal counts. -/
def generateReport (df : DataFrame) (symbol period : String) : Except String Report := do
  let closes := df.bars.map Bar.Close
  let currentPrice ← match closes.getLast? with
    | some v => Except.ok v
    | none => Except.error "IndexError"
  let firstClose ← match closes.head? with
    | some v => Except.ok v
    | none => Except.error "IndexError"
  let priceChange ← if firstClose = 0 then
      Except.error "DivisionByZero"
    else
      Except.ok ((currentPrice - firstClose) / firstClose * 100)
  let rsiCol ← getDerived df "RSI"
  let rsiLatest ← match rsiCol.getLast? with
    | some v => Except.ok v
    | none => Except.error "IndexError"
  let gc ← getSignal df "Golden_Cross"
  let dc ← getSignal df "Death_Cross"
  let ov ← getSignal df "Oversold"
  let ob ← getSignal df "Overbought"
  Except.ok
    { symbol := symbol
      period := period
      currentPrice := currentPrice
      priceChangePct := priceChange
      rsiLatest := rsiLatest
      goldenCrosses := gc.countP id
      deathCrosses := dc.countP id
      timesOversold := ov.countP id
      timesOverbought := ob.countP id }

/-- The method `generate_report` as a transformer of the object state
`self.data`: the body only reads `self.data` and builds the report
dictionary — it contains no assignment — so the post-state is the
pre-state. -/
def generateReportSt (df : DataFrame) (symbol period : String) :
    Except String (Report × DataFrame) :=
  (generateReport df symbol period).map fun r => (r, df)

/-- The pipeline of `main` (lines 133–143): construct (which loads),
`add_indicators`, `identify_patterns`, `generate_report`. -/
def runPipeline (bbStd : List ℚ → ℚ) (symbol period : String) (fetched : List Bar) :
    Except String Report := do
  let df ← loadData symbol fetched
  let df1 := addIndicators bbStd df
  let df2 ← identifyPatterns df1
  generateReport df2 symbol period

/-! ## Basic lemmas about the embedded operations -/

lemma length_shift1 (l : List (Option ℚ)) : (shift1 l).length = l.length := by
  simp [shift1]

lemma shift1_getElem?_zero (l : List (Option ℚ)) (h : 0 < l.length) :
    (shift1 l)[0]? = some none := by
  unfold shift1
  rw [List.getElem?_take]
  simp [h]

lemma shift1_getElem?_succ (l : List (Option ℚ)) (i : ℕ) (h : i + 1 < l.length) :
    (shift1 l)[i + 1]? = l[i]? := by
  unfold shift1
  rw [List.getElem?_take]
  simp [h]

lemma length_goldenCross (fast slow : List (Option ℚ)) :
    (goldenCross fast slow).length = min fast.length slow.length := by
  simp [goldenCross, List.length_zipWith, length_shift1]

lemma length_deathCross (fast slow : List (Option ℚ)) :
    (deathCross fast slow).length = min fast.length slow.length := by
  simp [deathCross, List.length_zipWith, length_shift1]

lemma cmpGT_and_cmpLT (x y : Option ℚ) : (cmpGT x y && cmpLT x y) = false := by
  cases x with
  | none => rfl
  | some a =>
    cases y with
    | none => rfl
    | some b =>
      by_cases h : b < a
      · simp [cmpGT, cmpLT, h, lt_asymm h]
      · simp [cmpGT, cmpLT, h]

lemma length_emaFrom (alpha seed : ℚ) (xs : List ℚ) :
    (emaFrom alpha seed xs).length = xs.length := by
  induction xs generalizing seed with
  | nil => rfl
  | cons c cs ih => simp [emaFrom, ih]

lemma emaFrom_chain (alpha : ℚ) (xs : List ℚ) (seed : ℚ) (j : ℕ) (hj : j < xs.length) :
    ∃ p x, (seed :: emaFrom alpha seed xs)[j]? = some p ∧
      xs[j]? = some x ∧
      (seed :: emaFrom alpha seed xs)[j + 1]? = some (alpha * x + (1 - alpha) * p) := by
  induction xs generalizing seed j with
  | nil => simp at hj
  | cons c cs ih =>
    cases j with
    | zero => exact ⟨seed, c, rfl, by simp, by simp [emaFrom]⟩
    | succ k =>
      obtain ⟨p, x, h1, h2, h3⟩ :=
        ih (alpha * c + (1 - alpha) * seed) k (by simp at hj; omega)
      refine ⟨p, x, ?_, ?_, ?_⟩
      · simpa [emaFrom] using h1
      · simpa using h2
      · simpa [emaFrom] using h3

lemma length_ema (closes : List ℚ) (w : ℕ) : (ema closes w).length = closes.length := by
  unfold ema
  split
  case isTrue h => simp [length_emaFrom]; omega
  case isFalse h => simp

lemma length_windowed (g : ℕ → ℚ) (L w : ℕ) : (windowed g L w).length = L := by
  simp [windowed]

lemma windowed_getElem? (g : ℕ → ℚ) (L w i : ℕ) (h : i < L) :
    (windowed g L w)[i]? = some (if w ≤ i + 1 then some (g i) else none) := by
  simp [windowed, List.getElem?_map, List.getElem?_range, h]

lemma windowed_all_absent (g : ℕ → ℚ) (L w : ℕ) (h : L < w) :
    windowed g L w = List.replicate L none := by
  apply List.ext_getElem?
  intro i
  by_cases hi : i < L
  · rw [windowed_getElem? g L w i hi, List.getElem?_replicate]
    have hnot : ¬ w ≤ i + 1 := by omega
    simp [hi, hnot]
  · rw [List.getElem?_eq_none (by rw [length_windowed]; omega),
      List.getElem?_eq_none (by simp; omega)]

lemma countP_windowed (g : ℕ → ℚ) (w : ℕ) (hw : 0 < w) :
    ∀ L, (windowed g L w).countP (fun v => v.isSome) = L - min L (w - 1)
  | 0 => by simp [windowed]
  | L + 1 => by
    have ih := countP_windowed g w hw L
    have hr : windowed g (L + 1) w =
        windowed g L w ++ [if w ≤ L + 1 then some (g L) else none] := by
      unfold windowed
      rw [List.range_succ, List.map_append]
      rfl
    rw [hr, List.countP_append, ih]
    by_cases h : w ≤ L + 1
    · rw [if_pos h]
      have h1 : List.countP (fun v => v.isSome) [some (g L)] = 1 := rfl
      rw [h1]
      omega
    · rw [if_neg h]
      have h1 : List.countP (fun v => v.isSome) [(none : Option ℚ)] = 0 := rfl
      rw [h1]
      omega

lemma windowed_pattern (g : ℕ → ℚ) (L w : ℕ) (hw : 0 < w) :
    (windowed g L w).length = L ∧
    (L < w → windowed g L w = List.replicate L none) ∧
    (w ≤ L → (windowed g L w).countP (fun v => v.isSome) = L - w + 1) ∧
    (∀ i, i < L → (((windowed g L w)[i]? = some none) ↔ i < w - 1)) := by
  refine ⟨length_windowed g L w, windowed_all_absent g L w, ?_, ?_⟩
  · intro hwl
    rw [countP_windowed g w hw L]
    omega
  · intro i hi
    rw [windowed_getElem? g L w i hi]
    by_cases h : w ≤ i + 1
    · have hn : ¬ i < w - 1 := by omega
      simp [h, hn]
    · have hp : i < w - 1 := by omega
      simp [h, hp]

lemma ema_pattern (closes : List ℚ) (w : ℕ) (hw : 0 < w) :
    (ema closes w).length = closes.length ∧
    (closes.length < w → ema closes w = List.replicate closes.length none) ∧
    (w ≤ closes.length →
      (ema closes w).countP (fun v => v.isSome) = closes.length - w + 1) ∧
    (w ≤ closes.length → ∀ i, i < closes.length →
      (((ema closes w)[i]? = some none) ↔ i < w - 1)) := by
  refine ⟨length_ema closes w, ?_, ?_, ?_⟩
  · intro h
    unfold ema
    rw [if_neg (by omega : ¬(0 < w ∧ w ≤ closes.length))]
  · intro hwl
    unfold ema
    rw [if_pos ⟨hw, hwl⟩, List.countP_append]
    have h1 : (List.replicate (w - 1) (none : Option ℚ)).countP
        (fun v => v.isSome) = 0 := by
      rw [List.countP_eq_zero]
      intro a ha
      rw [List.eq_of_mem_replicate ha]
      simp
    rw [h1, List.countP_map]
    have h2 : ((fun v : Option ℚ => v.isSome) ∘ some) = fun _ => true := by
      funext x; rfl
    rw [h2, List.countP_true]
    simp [length_emaFrom]
  · intro hwl i hi
    unfold ema
    rw [if_pos ⟨hw, hwl⟩]
    by_cases h : i < w - 1
    · rw [List.getElem?_append]
      rw [if_pos (by simp; omega)]
      rw [List.getElem?_replicate, if_pos (by omega : i < w - 1)]
      simp [h]
    · rw [List.getElem?_append]
      rw [if_neg (by simp; omega)]
      have hidx : i - (List.replicate (w - 1) (none : Option ℚ)).length = i - (w - 1) := by
        simp
      rw [hidx, List.getElem?_map]
      simp only [Option.map_eq_some']
      constructor
      · rintro ⟨v, hv1, hv2⟩
        exact absurd hv2 (by simp)
      · intro hcon
        exact absurd hcon h

/-! ## Claim theorems -/

/-- C6: Golden_Cross and Death_Cross are never both true at the same
index: the pointwise conjunction of the two signal columns computed at
lines 52 and 55 is the all-false column. -/
theorem cross_mutual_exclusion (fast slow : List (Option ℚ)) :
    List.zipWith (fun a b => a && b) (goldenCross fast slow) (deathCross fast slow) =
      List.replicate (min fast.length slow.length) false := by
  apply List.ext_getElem
  · simp [List.length_zipWith, length_goldenCross, length_deathCross]
  · intro i h1 h2
    rw [List.getElem_zipWith]
    rw [List.getElem_replicate]
    have hg : i < (goldenCross fast slow).length := by
      simp only [List.length_zipWith] at h1; omega
    have hd : i < (deathCross fast slow).length := by
      simp only [List.length_zipWith] at h1; omega
    have hf : i < fast.length := by rw [length_goldenCross] at hg; omega
    have hs : i < slow.length := by rw [length_goldenCross] at hg; omega
    have hsh : i < (shift1 fast).length := by rw [length_shift1]; omega
    have hss : i < (shift1 slow).length := by rw [length_shift1]; omega
    unfold goldenCross deathCross
    rw [List.getElem_zipWith, List.getElem_zipWith, List.getElem_zipWith,
      List.getElem_zipWith, List.getElem_zipWith, List.getElem_zipWith]
    have hx := cmpGT_and_cmpLT fast[i] slow[i]
    cases hgt : cmpGT fast[i] slow[i] with
    | false => simp
    | true =>
      cases hlt : cmpLT fast[i] slow[i] with
      | false => simp
      | true => rw [hgt, hlt] at hx; simp at hx

/-- C1: characterization of both crossover signals.  `Golden_Cross[i]` is
true iff both averages are present at `i` and `i-1`, with `fast > slow`
(strict) at `i` and `fast <= slow` (non-strict) at `i-1`; `Death_Cross[i]`
symmetrically with `fast < slow` at `i` and `fast >= slow` at `i-1`.  Both
are false at `i = 0` and wherever any of the four operands is absent. -/
theorem crossover_semantics (fast slow : List (Option ℚ))
    (hlen : fast.length = slow.length) (i : ℕ) (hi : i < fast.length) :
    ((goldenCross fast slow)[i]? = some true ↔
      0 < i ∧ ∃ f s pf ps,
        fast[i]? = some (some f) ∧ slow[i]? = some (some s) ∧
        fast[i - 1]? = some (some pf) ∧ slow[i - 1]? = some (some ps) ∧
        s < f ∧ pf ≤ ps) ∧
    ((deathCross fast slow)[i]? = some true ↔
      0 < i ∧ ∃ f s pf ps,
        fast[i]? = some (some f) ∧ slow[i]? = some (some s) ∧
        fast[i - 1]? = some (some pf) ∧ slow[i - 1]? = some (some ps) ∧
        f < s ∧ ps ≤ pf) := by
  have hs : i < slow.length := by omega
  have hg : i < (goldenCross fast slow).length := by
    rw [length_goldenCross]; omega
  have hd : i < (deathCross fast slow).length := by
    rw [length_deathCross]; omega
  have hsf : i < (shift1 fast).length := by rw [length_shift1]; omega
  have hss : i < (shift1 slow).length := by rw [length_shift1]; omega
  have hgv : (goldenCross fast slow)[i]? =
      some (cmpGT fast[i] slow[i] && cmpLE (shift1 fast)[i] (shift1 slow)[i]) := by
    rw [List.getElem?_eq_getElem hg]
    unfold goldenCross
    rw [List.getElem_zipWith, List.getElem_zipWith, List.getElem_zipWith]
  have hdv : (deathCross fast slow)[i]? =
      some (cmpLT fast[i] slow[i] && cmpGE (shift1 fast)[i] (shift1 slow)[i]) := by
    rw [List.getElem?_eq_getElem hd]
    unfold deathCross
    rw [List.getElem_zipWith, List.getElem_zipWith, List.getElem_zipWith]
  cases i with
  | zero =>
    have h1 : (shift1 fast)[0] = none := by
      have := shift1_getElem?_zero fast (by omega)
      rw [List.getElem?_eq_getElem hsf] at this
      exact Option.some.inj this
    have h2 : (shift1 slow)[0] = none := by
      have := shift1_getElem?_zero slow (by omega)
      rw [List.getElem?_eq_getElem hss] at this
      exact Option.some.inj this
    rw [hgv, hdv, h1, h2]
    constructor
    · simp [cmpLE]
    · simp [cmpGE]
  | succ j =>
    have hj : j < fast.length := by omega
    have hjs : j < slow.length := by omega
    have h1 : (shift1 fast)[j + 1] = fast[j] := by
      have := shift1_getElem?_succ fast j hi
      rw [List.getElem?_eq_getElem hsf, List.getElem?_eq_getElem hj] at this
      exact Option.some.inj this
    have h2 : (shift1 slow)[j + 1] = slow[j] := by
      have := shift1_getElem?_succ slow j (by omega)
      rw [List.getElem?_eq_getElem hss, List.getElem?_eq_getElem hjs] at this
      exact Option.some.inj this
    rw [hgv, hdv, h1, h2]
    rw [List.getElem?_eq_getElem hi, List.getElem?_eq_getElem hs]
    simp only [Nat.add_sub_cancel]
    rw [List.getElem?_eq_getElem hj, List.getElem?_eq_getElem hjs]
    constructor
    · rcases hfa : fast[j + 1] with _ | f <;> rcases hsl : slow[j + 1] with _ | s <;>
        rcases hpf : fast[j] with _ | pf <;> rcases hps : slow[j] with _ | ps <;>
          simp [cmpGT, cmpLE, hfa, hsl, hpf, hps]
    · rcases hfa : fast[j + 1] with _ | f <;> rcases hsl : slow[j + 1] with _ | s <;>
        rcases hpf : fast[j] with _ | pf <;> rcases hps : slow[j] with _ | ps <;>
          simp [cmpLT, cmpGE, hfa, hsl, hpf, hps]

/-- Witness for C1 at a concrete pair of aligned columns: fast crosses
strictly above slow at index 1 after sitting on it at index 0. -/
theorem crossover_semantics_witness :
    (((goldenCross [some 2, some 3] [some 2, some 2])[1]? = some true ↔
      0 < 1 ∧ ∃ f s pf ps,
        ([some 2, some 3] : List (Option ℚ))[1]? = some (some f) ∧
        ([some 2, some 2] : List (Option ℚ))[1]? = some (some s) ∧
        ([some 2, some 3] : List (Option ℚ))[1 - 1]? = some (some pf) ∧
        ([some 2, some 2] : List (Option ℚ))[1 - 1]? = some (some ps) ∧
        s < f ∧ pf ≤ ps) ∧
    ((deathCross [some 2, some 3] [some 2, some 2])[1]? = some true ↔
      0 < 1 ∧ ∃ f s pf ps,
        ([some 2, some 3] : List (Option ℚ))[1]? = some (some f) ∧
        ([some 2, some 2] : List (Option ℚ))[1]? = some (some s) ∧
        ([some 2, some 3] : List (Option ℚ))[1 - 1]? = some (some pf) ∧
        ([some 2, some 2] : List (Option ℚ))[1 - 1]? = some (some ps) ∧
        f < s ∧ ps ≤ pf)) :=
  crossover_semantics [some 2, some 3] [some 2, some 2] rfl 1 (by norm_num)

lemma ok_bind {ε α β : Type} (a : α) (f : α → Except ε β) :
    (Except.ok a >>= f) = f a := rfl

lemma error_bind {ε α β : Type} (e : ε) (f : α → Except ε β) :
    ((Except.error e : Except ε α) >>= f) = Except.error e := rfl

lemma emaFrom_nonneg (alpha : ℚ) (xs : List ℚ) (seed : ℚ) (h0 : 0 ≤ alpha)
    (h1 : alpha ≤ 1) (hs : 0 ≤ seed) (hxs : ∀ x ∈ xs, 0 ≤ x) :
    ∀ y ∈ emaFrom alpha seed xs, 0 ≤ y := by
  induction xs generalizing seed with
  | nil => simp [emaFrom]
  | cons c cs ih =>
    intro y hy
    have hc : 0 ≤ c := hxs c (by simp)
    have he : 0 ≤ alpha * c + (1 - alpha) * seed :=
      add_nonneg (mul_nonneg h0 hc) (mul_nonneg (by linarith) hs)
    rw [emaFrom] at hy
    rcases List.mem_cons.mp hy with h | h
    · rw [h]; exact he
    · exact ih (alpha * c + (1 - alpha) * seed) he
        (fun x hx => hxs x (List.mem_cons_of_mem c hx)) y h

lemma wilderAvgs_nonneg (xs : List ℚ) (w : ℕ) (hxs : ∀ x ∈ xs, 0 ≤ x) :
    ∀ y ∈ wilderAvgs xs w, 0 ≤ y := by
  unfold wilderAvgs
  split
  case isTrue h =>
    have hw1 : (1 : ℚ) ≤ (w : ℚ) := by exact_mod_cast h.1
    have hseed : 0 ≤ (xs.take w).sum / (w : ℚ) :=
      div_nonneg
        (List.sum_nonneg fun x hx => hxs x (List.mem_of_mem_take hx))
        (by linarith)
    intro y hy
    rcases List.mem_cons.mp hy with h' | h'
    · rw [h']; exact hseed
    · exact emaFrom_nonneg (1 / w) (xs.drop w) _ (by positivity)
        (by rw [div_le_one (by linarith)]; exact hw1) hseed
        (fun x hx => hxs x (List.mem_of_mem_drop hx)) y h'
  case isFalse h => simp

lemma gains_nonneg (closes : List ℚ) : ∀ x ∈ gains closes, 0 ≤ x := by
  intro x hx
  obtain ⟨d, _, hd⟩ := List.mem_map.mp hx
  rw [← hd]
  exact le_max_right d 0

lemma losses_nonneg (closes : List ℚ) : ∀ x ∈ losses closes, 0 ≤ x := by
  intro x hx
  obtain ⟨d, _, hd⟩ := List.mem_map.mp hx
  rw [← hd]
  exact le_max_right (-d) 0

lemma rsiVal_bounds (g l : ℚ) (hg : 0 ≤ g) (hl : 0 ≤ l) :
    0 ≤ rsiVal g l ∧ rsiVal g l ≤ 100 := by
  unfold rsiVal
  split
  case isTrue h => norm_num
  case isFalse h =>
    have hlp : 0 < l := lt_of_le_of_ne hl (Ne.symm h)
    have hrs : 0 ≤ g / l := div_nonneg hg hl
    constructor
    · have hle : 100 / (1 + g / l) ≤ 100 := by
        apply div_le_self (by norm_num)
        linarith
      linarith
    · have hpos : 0 ≤ 100 / (1 + g / l) := by positivity
      linarith

lemma mem_zipWith_imp {α β γ : Type} (f : α → β → γ) (a : List α) (b : List β)
    (c : γ) (h : c ∈ List.zipWith f a b) : ∃ x ∈ a, ∃ y ∈ b, c = f x y := by
  induction a generalizing b with
  | nil => simp at h
  | cons x xs ih =>
    cases b with
    | nil => simp at h
    | cons y ys =>
      rw [List.zipWith_cons_cons] at h
      rcases List.mem_cons.mp h with h' | h'
      · exact ⟨x, by simp, y, by simp, h'⟩
      · obtain ⟨x', hx', y', hy', he⟩ := ih ys h'
        exact ⟨x', List.mem_cons_of_mem x hx', y', List.mem_cons_of_mem y hy', he⟩

lemma length_wilderAvgs (xs : List ℚ) (w : ℕ) (h : 0 < w ∧ w ≤ xs.length) :
    (wilderAvgs xs w).length = xs.length - w + 1 := by
  unfold wilderAvgs
  rw [if_pos h]
  simp [length_emaFrom]

/-- C3: every present RSI value lies in `[0, 100]`, and the RSI value is
exactly 100 at every index whose Wilder-smoothed average loss is 0 (the
RSI column places the value fed by `lossAvgs[j]` at index `w + j`). -/
theorem rsi_bounds (closes : List ℚ) (w : ℕ) :
    (∀ x : ℚ, some x ∈ rsi closes w → 0 ≤ x ∧ x ≤ 100) ∧
    (∀ j : ℕ, (lossAvgs closes w)[j]? = some 0 →
      (rsi closes w)[w + j]? = some (some 100)) := by
  constructor
  · intro x hx
    unfold rsi at hx
    split at hx
    case isTrue h =>
      rcases List.mem_append.mp hx with h' | h'
      · exact absurd (List.eq_of_mem_replicate h') (by simp)
      · obtain ⟨g, hg, l, hl, he⟩ :=
          mem_zipWith_imp (fun g l => some (rsiVal g l)) _ _ _ h'
        have hgn : 0 ≤ g := wilderAvgs_nonneg (gains closes) w (gains_nonneg closes) g hg
        have hln : 0 ≤ l := wilderAvgs_nonneg (losses closes) w (losses_nonneg closes) l hl
        have hxe : x = rsiVal g l := by
          rw [Option.some.injEq] at he
          exact he
        rw [hxe]
        exact rsiVal_bounds g l hgn hln
    case isFalse h =>
      exact absurd (List.eq_of_mem_replicate hx) (by simp)
  · intro j hj
    have hcond : 0 < w ∧ w ≤ (deltas closes).length := by
      by_contra hc
      have hnil : lossAvgs closes w = [] := by
        unfold lossAvgs wilderAvgs
        rw [if_neg]
        intro h'
        exact hc ⟨h'.1, by simpa [losses] using h'.2⟩
      rw [hnil] at hj
      simp at hj
    obtain ⟨hjlen, hjval⟩ := List.getElem?_eq_some.mp hj
    have hlg : (gainAvgs closes w).length = (deltas closes).length - w + 1 := by
      unfold gainAvgs
      rw [length_wilderAvgs _ _ ⟨hcond.1, by simpa [gains] using hcond.2⟩]
      simp [gains]
    have hll : (lossAvgs closes w).length = (deltas closes).length - w + 1 := by
      unfold lossAvgs
      rw [length_wilderAvgs _ _ ⟨hcond.1, by simpa [losses] using hcond.2⟩]
      simp [losses]
    unfold rsi
    rw [if_pos hcond, List.getElem?_append, if_neg (by simp)]
    have hidx : w + j - (List.replicate w (none : Option ℚ)).length = j := by
      simp
    rw [hidx]
    have hjz : j < (List.zipWith (fun g l => some (rsiVal g l))
        (gainAvgs closes w) (lossAvgs closes w)).length := by
      rw [List.length_zipWith]
      omega
    rw [List.getElem?_eq_getElem hjz, List.getElem_zipWith]
    have hlj : (lossAvgs closes w)[j] = 0 := hjval
    rw [hlj]
    simp [rsiVal]

/-- The strictly increasing 15-close series used to exercise the RSI on a
window of losses that are all zero. -/
def exUp : List ℚ := [1, 2, 3, 4, 5, 6, 7, 8, 9, 10, 11, 12, 13, 14, 15]

/-- Witness for C3 on `exUp` (window 14): the average loss at position 0 is
zero and the RSI value at index 14 is exactly 100, which is within
`[0, 100]`. -/
theorem rsi_bounds_witness :
    (rsi exUp 14)[14 + 0]? = some (some 100) ∧ (0 ≤ (100 : ℚ) ∧ (100 : ℚ) ≤ 100) := by
  have hloss : lossAvgs exUp 14 = [0] := by
    have hd : deltas exUp = List.replicate 14 1 := by
      unfold deltas exUp
      norm_num [List.zipWith]
      rfl
    unfold lossAvgs wilderAvgs losses
    rw [hd]
    norm_num [List.replicate, emaFrom]
  constructor
  · exact (rsi_bounds exUp 14).2 0 (by rw [hloss]; rfl)
  · refine (rsi_bounds exUp 14).1 100 ?_
    have h14 := (rsi_bounds exUp 14).2 0 (by rw [hloss]; rfl)
    have hlt : 14 + 0 < (rsi exUp 14).length := by
      rcases List.getElem?_eq_some.mp h14 with ⟨hl, _⟩
      exact hl
    rcases List.getElem?_eq_some.mp h14 with ⟨hl, hv⟩
    rw [← hv]
    exact List.getElem_mem hl

/-- C4: the EMA column is absent before the seed index `w - 1`, equals the
simple mean of the first `w` closes at the seed index, and satisfies the
recurrence `ema[i] = alpha * close[i] + (1 - alpha) * ema[i-1]` with
`alpha = 2/(w+1)` at every later index. -/
theorem ema_spec (closes : List ℚ) (w : ℕ) (hw : 0 < w) (hwl : w ≤ closes.length) :
    (∀ i, i < w - 1 → (ema closes w)[i]? = some none) ∧
    (ema closes w)[w - 1]? = some (some ((closes.take w).sum / w)) ∧
    (∀ i, w ≤ i → i < closes.length →
      ∃ p c, (ema closes w)[i - 1]? = some (some p) ∧
        closes[i]? = some c ∧
        (ema closes w)[i]? =
          some (some (2 / (w + 1) * c + (1 - 2 / (w + 1)) * p))) := by
  have hef : ema closes w =
      List.replicate (w - 1) none ++
        (((closes.take w).sum / w) ::
          emaFrom (2 / (w + 1)) ((closes.take w).sum / w) (closes.drop w)).map some := by
    unfold ema
    rw [if_pos ⟨hw, hwl⟩]
  refine ⟨?_, ?_, ?_⟩
  · intro i hilt
    rw [hef, List.getElem?_append, if_pos (by simp; omega),
      List.getElem?_replicate, if_pos hilt]
  · rw [hef, List.getElem?_append, if_neg (by simp)]
    have hidx : w - 1 - (List.replicate (w - 1) (none : Option ℚ)).length = 0 := by
      simp
    rw [hidx, List.getElem?_map]
    simp
  · intro i hwi hiL
    obtain ⟨p, x, h1, h2, h3⟩ :=
      emaFrom_chain (2 / (w + 1)) (closes.drop w) ((closes.take w).sum / w)
        (i - w) (by simp; omega)
    refine ⟨p, x, ?_, ?_, ?_⟩
    · rw [hef, List.getElem?_append, if_neg (by simp; omega)]
      have hidx : i - 1 - (List.replicate (w - 1) (none : Option ℚ)).length = i - w := by
        simp; omega
      rw [hidx, List.getElem?_map, h1]
      rfl
    · rw [List.getElem?_drop] at h2
      have hwi' : w + (i - w) = i := by omega
      rw [hwi'] at h2
      exact h2
    · rw [hef, List.getElem?_append, if_neg (by simp; omega)]
      have hidx : i - (List.replicate (w - 1) (none : Option ℚ)).length = i - w + 1 := by
        simp; omega
      rw [hidx, List.getElem?_map, h3]
      rfl

/-- Witness for C4 on the concrete series `[1, 2, 3]` with window 2:
the seed value at index 1 and an absent index do exist as stated. -/
theorem ema_spec_witness :
    (ema [1, 2, 3] 2)[2 - 1]? =
      some (some ((([1, 2, 3] : List ℚ).take 2).sum / (2 : ℕ))) ∧
    ∃ p c : ℚ, (ema [1, 2, 3] 2)[2 - 1]? = some (some p) ∧
      ([1, 2, 3] : List ℚ)[2]? = some c ∧
      (ema [1, 2, 3] 2)[2]? =
        some (some (2 / (((2 : ℕ) : ℚ) + 1) * c + (1 - 2 / (((2 : ℕ) : ℚ) + 1)) * p)) :=
  ⟨(ema_spec [1, 2, 3] 2 (by norm_num) (by norm_num)).2.1,
   (ema_spec [1, 2, 3] 2 (by norm_num) (by norm_num)).2.2 2 (by norm_num) (by norm_num)⟩

/-- C5: for every close series of length `L` and window `w > 0`, the SMA,
EMA and Bollinger columns all have length `L`; they are all-absent when
`L < w`; and when `w ≤ L` each has exactly `L - w + 1` present entries,
sitting exactly at the trailing indices `w - 1 … L - 1` (an entry at
`i < L` is absent iff `i < w - 1`). -/
theorem warmup_pattern (stdev : List ℚ → ℚ) (closes : List ℚ) (w : ℕ) (k : ℚ)
    (hw : 0 < w) :
    ((sma closes w).length = closes.length ∧
     (ema closes w).length = closes.length ∧
     (bollingerMavg closes w).length = closes.length ∧
     (bollingerHband stdev closes w k).length = closes.length ∧
     (bollingerLband stdev closes w k).length = closes.length) ∧
    (closes.length < w →
      sma closes w = List.replicate closes.length none ∧
      ema closes w = List.replicate closes.length none ∧
      bollingerMavg closes w = List.replicate closes.length none ∧
      bollingerHband stdev closes w k = List.replicate closes.length none ∧
      bollingerLband stdev closes w k = List.replicate closes.length none) ∧
    (w ≤ closes.length →
      ((sma closes w).countP (fun v => v.isSome) = closes.length - w + 1 ∧
       (ema closes w).countP (fun v => v.isSome) = closes.length - w + 1 ∧
       (bollingerMavg closes w).countP (fun v => v.isSome) = closes.length - w + 1 ∧
       (bollingerHband stdev closes w k).countP (fun v => v.isSome) =
         closes.length - w + 1 ∧
       (bollingerLband stdev closes w k).countP (fun v => v.isSome) =
         closes.length - w + 1) ∧
      ∀ i, i < closes.length →
        (((sma closes w)[i]? = some none) ↔ i < w - 1) ∧
        (((ema closes w)[i]? = some none) ↔ i < w - 1) ∧
        (((bollingerMavg closes w)[i]? = some none) ↔ i < w - 1) ∧
        (((bollingerHband stdev closes w k)[i]? = some none) ↔ i < w - 1) ∧
        (((bollingerLband stdev closes w k)[i]? = some none) ↔ i < w - 1)) := by
  obtain ⟨hl1, ha1, hc1, hp1⟩ :=
    windowed_pattern (fun i => (rollWindow closes w i).sum / w) closes.length w hw
  obtain ⟨hl2, ha2, hc2, hp2⟩ :=
    windowed_pattern
      (fun i => (rollWindow closes w i).sum / w + k * stdev (rollWindow closes w i))
      closes.length w hw
  obtain ⟨hl3, ha3, hc3, hp3⟩ :=
    windowed_pattern
      (fun i => (rollWindow closes w i).sum / w - k * stdev (rollWindow closes w i))
      closes.length w hw
  obtain ⟨he1, he2, he3, he4⟩ := ema_pattern closes w hw
  refine ⟨⟨hl1, he1, hl1, hl2, hl3⟩, ?_, ?_⟩
  · intro hlt
    exact ⟨ha1 hlt, he2 hlt, ha1 hlt, ha2 hlt, ha3 hlt⟩
  · intro hle
    refine ⟨⟨hc1 hle, he3 hle, hc1 hle, hc2 hle, hc3 hle⟩, ?_⟩
    intro i hi
    exact ⟨hp1 i hi, he4 hle i hi, hp1 i hi, hp2 i hi, hp3 i hi⟩

/-- Witness for C5 on the concrete series `[1, 2]` with window 2. -/
theorem warmup_pattern_witness :
    (sma [1, 2] 2).length = 2 ∧
    (ema [1, 2] 2).countP (fun v => v.isSome) = 1 ∧
    ((sma [1, 2] 2)[0]? = some none ↔ 0 < 2 - 1) :=
  ⟨((warmup_pattern (fun _ => 0) [1, 2] 2 2 (by norm_num)).1).1,
   ((warmup_pattern (fun _ => 0) [1, 2] 2 2 (by norm_num)).2.2 (by norm_num)).1.2.1,
   (((warmup_pattern (fun _ => 0) [1, 2] 2 2 (by norm_num)).2.2 (by norm_num)).2 0
     (by norm_num)).1⟩

/-- The example close series of the spec's §8 scenario: eleven 10's
followed by one 12. -/
def exCloses : List ℚ := [10, 10, 10, 10, 10, 10, 10, 10, 10, 10, 10, 12]

/-- C7: on `exCloses` (length 12) with window 10, the SMA column is absent
at indices 0–8 and present at indices 9, 10, 11 with values 10, 10 and
10.2 = 102/10. -/
theorem sma_example :
    sma exCloses 10 =
      [none, none, none, none, none, none, none, none, none,
       some 10, some 10, some 10.2] ∧ (10.2 : ℚ) = 102 / 10 := by
  constructor
  · have hr : List.range 12 = [0, 1, 2, 3, 4, 5, 6, 7, 8, 9, 10, 11] := by decide
    simp [sma, windowed, exCloses, hr, rollWindow]
    norm_num
  · norm_num

/-- C8: when the data collaborator supplies zero bars, `load_data` raises
the ValueError immediately (the constructor calls it), and the whole
pipeline aborts with that error before any indicator or signal column is
computed. -/
theorem empty_series_aborts (bbStd : List ℚ → ℚ) (symbol period : String) :
    loadData symbol [] = Except.error ("No data found for " ++ symbol) ∧
    runPipeline bbStd symbol period [] =
      Except.error ("No data found for " ++ symbol) := by
  exact ⟨rfl, rfl⟩

/-- C10: on a dataframe as `load_data` leaves it (any non-empty series,
no derived columns yet), `identify_patterns` fails with the KeyError for
the missing SMA20 column rather than producing signal columns. -/
theorem patterns_require_indicators (symbol : String) (fetched : List Bar)
    (df : DataFrame) (h : loadData symbol fetched = Except.ok df) :
    identifyPatterns df = Except.error "KeyError: SMA20" := by
  unfold loadData at h
  split at h
  · cases h
  · cases h
    rfl

/-- Witness for C10 at a concrete one-bar series. -/
theorem patterns_require_indicators_witness :
    identifyPatterns (DataFrame.mk [Bar.mk 0 1 1 1 1] [] []) =
      Except.error "KeyError: SMA20" :=
  patterns_require_indicators "BTC" [Bar.mk 0 1 1 1 1]
    (DataFrame.mk [Bar.mk 0 1 1 1 1] [] []) rfl

/-- C2: the price-change computation of `generate_report`.  If the first
close in range is exactly zero, the method fails with the
DivisionByZero-class error surfaced to the caller (never a numeric value);
whenever the method returns a report, the first close was non-zero and the
report's price change is exactly `(last - first) / first * 100`. -/
theorem generateReport_priceChange (df : DataFrame) (symbol period : String) :
    (∀ first, (df.bars.map Bar.Close).head? = some first → first = 0 →
      generateReport df symbol period = Except.error "DivisionByZero") ∧
    (∀ r, generateReport df symbol period = Except.ok r →
      ∃ first lastv, (df.bars.map Bar.Close).head? = some first ∧
        (df.bars.map Bar.Close).getLast? = some lastv ∧ first ≠ 0 ∧
        r.priceChangePct = (lastv - first) / first * 100) := by
  constructor
  · intro first hh hz
    subst hz
    have hne : df.bars.map Bar.Close ≠ [] := by
      intro h
      rw [h] at hh
      simp at hh
    obtain ⟨lastv, hl⟩ := Option.isSome_iff_exists.mp (List.getLast?_isSome.mpr hne)
    simp only [generateReport]
    rw [hl, hh]
    simp [ok_bind, error_bind]
  · intro r h
    simp only [generateReport] at h
    cases hlast : (df.bars.map Bar.Close).getLast? with
    | none => rw [hlast] at h; simp [ok_bind, error_bind] at h
    | some lastv =>
      rw [hlast] at h
      cases hhead : (df.bars.map Bar.Close).head? with
      | none => rw [hhead] at h; simp [ok_bind, error_bind] at h
      | some first =>
        rw [hhead] at h
        simp only [ok_bind, error_bind] at h
        by_cases hz : first = 0
        · rw [if_pos hz] at h
          simp [error_bind] at h
        · rw [if_neg hz] at h
          cases hrsi : getDerived df "RSI" with
          | error e => rw [hrsi] at h; simp [ok_bind, error_bind] at h
          | ok rsiCol =>
            rw [hrsi] at h
            simp only [ok_bind, error_bind] at h
            cases hrl : rsiCol.getLast? with
            | none => rw [hrl] at h; simp [ok_bind, error_bind] at h
            | some rv =>
              rw [hrl] at h
              simp only [ok_bind, error_bind] at h
              cases hgc : getSignal df "Golden_Cross" with
              | error e => rw [hgc] at h; simp [ok_bind, error_bind] at h
              | ok gc =>
                rw [hgc] at h
                simp only [ok_bind, error_bind] at h
                cases hdc : getSignal df "Death_Cross" with
                | error e => rw [hdc] at h; simp [ok_bind, error_bind] at h
                | ok dc =>
                  rw [hdc] at h
                  simp only [ok_bind, error_bind] at h
                  cases hov : getSignal df "Oversold" with
                  | error e => rw [hov] at h; simp [ok_bind, error_bind] at h
                  | ok ov =>
                    rw [hov] at h
                    simp only [ok_bind, error_bind] at h
                    cases hob : getSignal df "Overbought" with
                    | error e => rw [hob] at h; simp [ok_bind, error_bind] at h
                    | ok ob =>
                      rw [hob] at h
                      simp only [ok_bind, error_bind, Except.ok.injEq] at h
                      refine ⟨first, lastv, rfl, rfl, hz, ?_⟩
                      rw [← h]

/-- A two-bar series whose first close is exactly zero. -/
def dfZero : DataFrame :=
  DataFrame.mk [Bar.mk 0 0 0 0 0, Bar.mk 1 5 5 5 5] [] []

/-- A fully annotated two-bar dataframe (closes 10 and 15, all derived and
signal columns present), as the pipeline leaves it before reporting. -/
def dfOk : DataFrame :=
  DataFrame.mk [Bar.mk 0 10 10 10 10, Bar.mk 1 15 15 15 15]
    [("RSI", [none, some 50])]
    [("Golden_Cross", [false, false]), ("Death_Cross", [false, false]),
     ("Oversold", [false, false]), ("Overbought", [false, false])]

/-- The report `generate_report` produces on `dfOk`. -/
def rOk : Report :=
  Report.mk "BTC" "p" 15 ((15 - 10) / 10 * 100) (some 50) 0 0 0 0

/-- Witness for C2: on `dfZero` the report fails with DivisionByZero, and
on `dfOk` the returned price change is `(15 - 10) / 10 * 100`. -/
theorem generateReport_priceChange_witness :
    generateReport dfZero "BTC" "p" = Except.error "DivisionByZero" ∧
    ∃ first lastv, (dfOk.bars.map Bar.Close).head? = some first ∧
      (dfOk.bars.map Bar.Close).getLast? = some lastv ∧ first ≠ 0 ∧
      rOk.priceChangePct = (lastv - first) / first * 100 :=
  ⟨(generateReport_priceChange dfZero "BTC" "p").1 0 rfl rfl,
   (generateReport_priceChange dfOk "BTC" "p").2 rOk rfl⟩

/-- C9: `generate_report` is a pure reduction of the annotated series: as a
state transformer on `self.data` it leaves every base bar, derived column
and signal column exactly as it found them, adding and removing nothing. -/
theorem generateReport_pure (df : DataFrame) (symbol period : String)
    (r : Report) (df' : DataFrame)
    (h : generateReportSt df symbol period = Except.ok (r, df')) :
    df'.bars = df.bars ∧ df'.derived = df.derived ∧ df'.signals = df.signals := by
  unfold generateReportSt at h
  cases hg : generateReport df symbol period with
  | error e =>
    rw [hg] at h
    simp [Except.map] at h
  | ok r0 =>
    rw [hg] at h
    simp only [Except.map, Except.ok.injEq, Prod.mk.injEq] at h
    rw [← h.2]
    exact ⟨rfl, rfl, rfl⟩

/-- Witness for C9 on the concrete annotated dataframe `dfOk`. -/
theorem generateReport_pure_witness :
    dfOk.bars = dfOk.bars ∧ dfOk.derived = dfOk.derived ∧
      dfOk.signals = dfOk.signals :=
  generateReport_pure dfOk "BTC" "p" rOk dfOk rfl

end CryptoAnalyzer
